import Mathlib

/-!
Verification of the tool-aggregation and agent-router modules.

Shallow embedding of three source files:
  - community/tools/patentclaims.py (PatentClaims.call)
  - community/tools/eplaw.py        (EPLaw.call)
  - backend/routers/agent.py        (agent CRUD handlers)

External effects (HTTP requests, chat completions, vector searches, the
persistence layer) are modelled as explicit inputs; the control flow and the
data manipulation of each function are translated statement by statement.
-/

/-- Outcome of a Python function call: either it returns a value or it raises
an exception (identified here by a descriptive message). -/
inductive PyOutcome (α : Type) where
  | returns (value : α)
  | raises (error : String)
deriving DecidableEq, Repr

/-- Outcome of a FastAPI route handler: a successful response value, a raised
HTTPException with a status code and a detail string, or an exception that
propagates out of the handler uncaught. -/
inductive HandlerOutcome (α : Type) where
  | ok (value : α)
  | httpError (status : Nat) (detail : String)
  | uncaught (message : String)
deriving DecidableEq, Repr

/-! ## PatentClaims.call (community/tools/patentclaims.py) -/

/-- Response of the OAuth2 token endpoint (requests.post at line 26):
status code plus the access token carried in its JSON body. -/
structure TokenResponse where
  status_code : Nat
  access_token : String
deriving DecidableEq, Repr

/-- One element of the claim list found in the published-data JSON at the path
ops:world-patent-data / ftxt:fulltext-documents / ftxt:fulltext-document /
claims. The source inspects only the "@lang" key (absent keys give none);
the rest of the claim dict is abstracted as an opaque body string. -/
structure PatentClaim where
  lang : Option String
  body : String
deriving DecidableEq, Repr

/-- Response of the published-data GET request (requests.get at line 50):
status code plus the claim list extracted from its JSON body. -/
structure DataResponse where
  status_code : Nat
  claims : List PatentClaim
deriving DecidableEq, Repr

/-- The network world one PatentClaims.call invocation sees. tokenResponse is
none when requests.post itself raises, in which case the except branch at
lines 29-32 sets the local auth_response to Python None. -/
structure PatentWorld where
  tokenResponse : Option TokenResponse
  dataResponse : DataResponse
deriving DecidableEq, Repr

/-- One element of the returned list: a dict with a single "text" key. -/
structure TextResult where
  text : String
deriving DecidableEq, Repr

/-- Abstraction of the Python f-string rendering of the claim list at line 68. -/
def formatClaims (cs : List PatentClaim) : String :=
  "[" ++ String.intercalate ", " (cs.map (fun c => c.body)) ++ "]"

/-- PatentClaims.call, lines 22-68. The locals data and claims_in_english are
tracked exactly as the source assigns them; the final statement
(line 68) returns a one-element list rendering claims_in_english, which is
unbound on every failure path, and when the token request raised, line 34
dereferences auth_response = None. -/
def PatentClaims.call (w : PatentWorld) (_patent_number : String) :
    PyOutcome (List TextResult) :=
  match w.tokenResponse with
  | none =>
      -- except branch ran (data := error sentinel, auth_response := None);
      -- line 34 then evaluates None.status_code
      .raises "AttributeError: NoneType object has no attribute status_code"
  | some auth =>
      if auth.status_code = 200 then
        let response := w.dataResponse
        if response.status_code = 200 then
          let claims_in_english :=
            response.claims.filter (fun c => c.lang == some "EN")
          .returns [⟨formatClaims claims_in_english⟩]
        else
          -- data := "Error: Failed to retrieve data"; claims_in_english is
          -- never assigned, so line 68 raises
          .raises "UnboundLocalError: claims_in_english"
      else
        -- data := "Error: Failed to obtain access token"; claims_in_english
        -- is never assigned, so line 68 raises
        .raises "UnboundLocalError: claims_in_english"

example :
    PatentClaims.call ⟨some ⟨401, ""⟩, ⟨200, []⟩⟩ "EP1000000" =
      .raises "UnboundLocalError: claims_in_english" := rfl

example :
    PatentClaims.call
        ⟨some ⟨200, "tok"⟩, ⟨200, [⟨some "EN", "claim 1"⟩, ⟨some "DE", "anspruch 1"⟩]⟩⟩
        "EP1000000" =
      .returns [⟨formatClaims [⟨some "EN", "claim 1"⟩]⟩] := rfl

/-! ## EPLaw.call (community/tools/eplaw.py) -/

/-- The whitespace characters stripped by the Python str.strip method
(restricted to the ASCII range). -/
def pyIsSpace (c : Char) : Bool :=
  c = ' ' || c = '\t' || c = '\n' || c = '\r' || c = '\x0b' || c = '\x0c'

/-- Model of the Python str.strip method: remove leading and trailing
whitespace. -/
def pyStrip (s : String) : String :=
  ⟨((s.toList.dropWhile pyIsSpace).reverse.dropWhile pyIsSpace).reverse⟩

/-- Left-to-right scan underlying the Python split on the three-character
separator used at line 55 of the source. The first argument accumulates the
current fragment in reverse. -/
def splitMarkerAux : List Char → List Char → List (List Char)
  | acc, '>' :: '>' :: '>' :: rest => acc.reverse :: splitMarkerAux [] rest
  | acc, c :: rest => splitMarkerAux (c :: acc) rest
  | acc, [] => [acc.reverse]

/-- Model of the Python expression s.split applied to the literal separator
of three greater-than signs: every occurrence cuts, empty fragments are
kept, and a string without the separator yields the one-element list of
itself. -/
def pySplitMarker (s : String) : List String :=
  (splitMarkerAux [] s.toList).map (fun cs => (⟨cs⟩ : String))

example : pySplitMarker "a>>>b" = ["a", "b"] := rfl
example : pySplitMarker "a>>>>b" = ["a", ">b"] := rfl
example : pySplitMarker ">>>>>>" = ["", "", ""] := rfl
example : pySplitMarker "nodelim" = ["nodelim"] := rfl
example : pyStrip "  x y\n " = "x y" := rfl

/-- Lines 55-57 of the source: split the chat response text on the separator,
drop the fragment before the first separator, strip each remaining fragment,
drop the empty ones, and append the original query. -/
def expandQueries (query chatText : String) : List String :=
  let generated_questions := (pySplitMarker chatText).drop 1
  let generated := (generated_questions.map pyStrip).filter (fun q => q != "")
  generated ++ [query]

/-- The part of the expansion determined by the fragments after the first
separator; used to state that the leading fragment is discarded. -/
def expandTail (query : String) (frags : List String) : List String :=
  ((frags.map pyStrip).filter (fun q => q != "")) ++ [query]

example : expandQueries "q" "Sure:>>> a >>> b >>>" = ["a", "b", "q"] := rfl
example : expandQueries "q" "no marker here" = ["q"] := rfl

/-- A weaviate result object as consumed by the source: its uuid, the rerank
score in its metadata (a float in the source, modelled as an integer), and
the three fields read when shaping the final documents (absent keys give
none). -/
structure WObject where
  uuid : String
  rerank_score : Int
  text : Option String
  title : Option String
  url : Option String
deriving DecidableEq, Repr

/-- The uniform document shape built at lines 90-97. -/
structure EPLawDoc where
  text : Option String
  title : Option String
  url : Option String
deriving DecidableEq, Repr

/-- The external world one EPLaw.call invocation sees: the text of the
query-expansion chat response, the search-query texts the chat service
extracts from each question, and the objects the hybrid search (limit 5,
reranked against the original query) returns for each search prompt. -/
structure EPLawWorld where
  chatText : String
  searchQueries : String → List String
  hybrid : String → List WObject

/-- Lines 55-57: the expanded question list for a query. -/
def generatedQuestions (w : EPLawWorld) (query : String) : List String :=
  expandQueries query w.chatText

/-- Lines 59-67: collect the extracted search-query texts over all
questions, in order. -/
def searchResults (w : EPLawWorld) (query : String) : List String :=
  (generatedQuestions w query).flatMap w.searchQueries

/-- Lines 69-81: pool the hybrid-search result objects over all search
prompts, in order. -/
def pooledObjects (w : EPLawWorld) (query : String) : List WObject :=
  (searchResults w query).flatMap w.hybrid

/-- One step of the Python dict comprehension at line 83: writing an object
under its uuid key. An existing key keeps its position and receives the new
value; a new key is appended. -/
def dictInsert : List (String × WObject) → WObject → List (String × WObject)
  | [], o => [(o.uuid, o)]
  | p :: rest, o =>
    if p.1 == o.uuid then (p.1, o) :: rest else p :: dictInsert rest o

/-- The dict built by the comprehension at line 83, as an association list in
key-insertion order. -/
def dictOfObjects (l : List WObject) : List (String × WObject) :=
  l.foldl dictInsert []

/-- Line 83: the values of the deduplication dict, in key-insertion order. -/
def uniqueObjects (l : List WObject) : List WObject :=
  (dictOfObjects l).map Prod.snd

/-- The comparison realising the Python sorted call with reverse=True keyed
on the rerank score (line 85). -/
def scoreGe (a b : WObject) : Bool :=
  decide (b.rerank_score ≤ a.rerank_score)

/-- Line 85: sort the deduplicated objects by descending rerank score. -/
def sortedObjects (w : EPLawWorld) (query : String) : List WObject :=
  (uniqueObjects (pooledObjects w query)).mergeSort scoreGe

/-- Line 87: keep the first five sorted objects. -/
def topObjects (w : EPLawWorld) (query : String) : List WObject :=
  (sortedObjects w query).take 5

/-- EPLaw.call, lines 24-97: the final uniform document list. -/
def EPLaw.call (w : EPLawWorld) (query : String) : List EPLawDoc :=
  (topObjects w query).map (fun doc => ⟨doc.text, doc.title, doc.url⟩)

/-! ### Lemmas about the deduplication dict -/

/-- Invariant of the deduplication dict: keys are pairwise distinct and every
value is stored under its own uuid. -/
def DictInv (d : List (String × WObject)) : Prop :=
  (d.map Prod.fst).Nodup ∧ ∀ p ∈ d, p.2.uuid = p.1

theorem mem_keys_dictInsert {x : String} :
    ∀ {d : List (String × WObject)} {o : WObject},
      x ∈ (dictInsert d o).map Prod.fst → x ∈ d.map Prod.fst ∨ x = o.uuid := by
  intro d
  induction d with
  | nil =>
    intro o h
    simp [dictInsert] at h
    exact Or.inr h
  | cons p rest ih =>
    intro o h
    cases hp : (p.1 == o.uuid) with
    | true =>
      simp only [dictInsert, hp, if_true, List.map_cons, List.mem_cons] at h
      exact Or.inl (by simpa using h)
    | false =>
      simp only [dictInsert, hp, Bool.false_eq_true, if_false, List.map_cons,
        List.mem_cons] at h
      rcases h with h | h
      · exact Or.inl (by simp [h])
      · rcases ih h with h2 | h2
        · exact Or.inl (List.mem_cons_of_mem _ h2)
        · exact Or.inr h2

theorem dictInsert_inv {d : List (String × WObject)} {o : WObject}
    (h : DictInv d) : DictInv (dictInsert d o) := by
  induction d with
  | nil =>
    refine ⟨by simp [dictInsert], ?_⟩
    intro p hp
    simp [dictInsert] at hp
    simp [hp]
  | cons p rest ih =>
    obtain ⟨hkeys, hvals⟩ := h
    simp only [List.map_cons, List.nodup_cons] at hkeys
    cases hp : (p.1 == o.uuid) with
    | true =>
      refine ⟨?_, ?_⟩
      · simpa [dictInsert, hp] using hkeys
      · intro q hq
        simp only [dictInsert, hp, if_true, List.mem_cons] at hq
        rcases hq with hq | hq
        · subst hq
          exact (eq_of_beq hp).symm
        · exact hvals q (by simp [hq])
    | false =>
      have hrest : DictInv rest :=
        ⟨hkeys.2, fun q hq => hvals q (by simp [hq])⟩
      obtain ⟨ikeys, ivals⟩ := ih hrest
      refine ⟨?_, ?_⟩
      · simp only [dictInsert, hp, Bool.false_eq_true, if_false, List.map_cons,
          List.nodup_cons]
        refine ⟨?_, ikeys⟩
        intro hmem
        rcases mem_keys_dictInsert hmem with h2 | h2
        · exact hkeys.1 h2
        · rw [h2] at hp
          simp at hp
      · intro q hq
        simp only [dictInsert, hp, Bool.false_eq_true, if_false,
          List.mem_cons] at hq
        rcases hq with hq | hq
        · subst hq; exact hvals q (by simp)
        · exact ivals q hq

theorem dictInv_foldl :
    ∀ (l : List WObject) (d : List (String × WObject)),
      DictInv d → DictInv (l.foldl dictInsert d)
  | [], _, h => h
  | o :: rest, d, h => dictInv_foldl rest (dictInsert d o) (dictInsert_inv h)

theorem dictInv_dictOfObjects (l : List WObject) : DictInv (dictOfObjects l) :=
  dictInv_foldl l [] ⟨List.nodup_nil, by simp⟩

theorem dictInsert_length :
    ∀ (d : List (String × WObject)) (o : WObject),
      (dictInsert d o).length ≤ d.length + 1 := by
  intro d
  induction d with
  | nil => intro o; simp [dictInsert]
  | cons p rest ih =>
    intro o
    cases hp : (p.1 == o.uuid) with
    | true => simp [dictInsert, hp]
    | false =>
      have := ih o
      simp only [dictInsert, hp, Bool.false_eq_true, if_false, List.length_cons]
      omega

theorem foldl_dictInsert_length :
    ∀ (l : List WObject) (d : List (String × WObject)),
      (l.foldl dictInsert d).length ≤ d.length + l.length := by
  intro l
  induction l with
  | nil => intro d; simp
  | cons o rest ih =>
    intro d
    have h1 := ih (dictInsert d o)
    have h2 := dictInsert_length d o
    simp only [List.foldl_cons, List.length_cons]
    omega

theorem uniqueObjects_length_le (l : List WObject) :
    (uniqueObjects l).length ≤ l.length := by
  have := foldl_dictInsert_length l []
  simpa [uniqueObjects, dictOfObjects] using this

theorem find?_dictInsert (u : String) :
    ∀ (d : List (String × WObject)) (o : WObject),
      ((dictInsert d o).find? (fun p => p.1 == u)).map Prod.snd =
        if o.uuid == u then some o
        else (d.find? (fun p => p.1 == u)).map Prod.snd := by
  intro d
  induction d with
  | nil =>
    intro o
    cases h : (o.uuid == u) <;> simp [dictInsert, List.find?_cons, h]
  | cons p rest ih =>
    intro o
    cases hp : (p.1 == o.uuid) with
    | true =>
      have hpo : p.1 = o.uuid := eq_of_beq hp
      cases hu : (p.1 == u) with
      | true =>
        have huu : (o.uuid == u) = true := by rw [← hpo]; exact hu
        simp [dictInsert, hp, List.find?_cons, hu, huu]
      | false =>
        have huu : (o.uuid == u) = false := by rw [← hpo]; exact hu
        simp [dictInsert, hp, List.find?_cons, hu, huu]
    | false =>
      cases hu : (p.1 == u) with
      | true =>
        have huu : (o.uuid == u) = false := by
          cases hb : (o.uuid == u) with
          | false => rfl
          | true =>
            have h1 : p.1 = u := eq_of_beq hu
            have h2 : o.uuid = u := eq_of_beq hb
            rw [h1, ← h2] at hp
            simp at hp
        simp [dictInsert, hp, List.find?_cons, hu, huu]
      | false =>
        simp only [dictInsert, hp, Bool.false_eq_true, if_false,
          List.find?_cons, hu]
        rw [ih o]

theorem find?_dictOfObjects (l : List WObject) (u : String) :
    ((dictOfObjects l).find? (fun p => p.1 == u)).map Prod.snd =
      (l.filter (fun o => o.uuid == u)).getLast? := by
  induction l using List.reverseRecOn with
  | nil => simp [dictOfObjects]
  | append_singleton rest o ih =>
    have hfold : dictOfObjects (rest ++ [o]) = dictInsert (dictOfObjects rest) o := by
      simp [dictOfObjects, List.foldl_append]
    rw [hfold, find?_dictInsert, List.filter_append]
    cases ho : (o.uuid == u) with
    | true => simp [ho, List.getLast?_concat]
    | false => simp [ho, ih]

theorem find?_eq_some_of_mem_nodupKeys :
    ∀ {d : List (String × WObject)} {p : String × WObject},
      (d.map Prod.fst).Nodup → p ∈ d → d.find? (fun q => q.1 == p.1) = some p := by
  intro d
  induction d with
  | nil => intro p _ hp; simp at hp
  | cons q rest ih =>
    intro p hnd hp
    simp only [List.map_cons, List.nodup_cons] at hnd
    rcases List.mem_cons.mp hp with hq | hq
    · subst hq
      simp [List.find?_cons]
    · have hne : (q.1 == p.1) = false := by
        cases hb : (q.1 == p.1) with
        | false => rfl
        | true =>
          exfalso
          apply hnd.1
          rw [eq_of_beq hb]
          exact List.mem_map.mpr ⟨p, hq, rfl⟩
      simpa [List.find?_cons, hne] using ih hnd.2 hq

theorem getLast?_filter_of_mem_uniqueObjects {l : List WObject} {o : WObject}
    (h : o ∈ uniqueObjects l) :
    (l.filter (fun x => x.uuid == o.uuid)).getLast? = some o := by
  rcases List.mem_map.mp h with ⟨p, hp, rfl⟩
  obtain ⟨hkeys, hvals⟩ := dictInv_dictOfObjects l
  have huuid : p.2.uuid = p.1 := hvals p hp
  have hfind := find?_eq_some_of_mem_nodupKeys hkeys hp
  have h2 := find?_dictOfObjects l p.1
  rw [hfind] at h2
  simp only [Option.map_some'] at h2
  rw [huuid]
  exact h2.symm

theorem mem_uniqueObjects_of_getLast?_filter {l : List WObject} {u : String}
    {o : WObject}
    (h : (l.filter (fun x => x.uuid == u)).getLast? = some o) :
    o ∈ uniqueObjects l := by
  have h2 := find?_dictOfObjects l u
  rw [h] at h2
  cases hf : (dictOfObjects l).find? (fun p => p.1 == u) with
  | none => rw [hf] at h2; simp at h2
  | some p =>
    rw [hf] at h2
    simp only [Option.map_some', Option.some.injEq] at h2
    exact List.mem_map.mpr ⟨p, List.mem_of_find?_eq_some hf, h2⟩

theorem uniqueObjects_uuids_nodup (l : List WObject) :
    ((uniqueObjects l).map (fun o => o.uuid)).Nodup := by
  obtain ⟨hkeys, hvals⟩ := dictInv_dictOfObjects l
  have heq : (uniqueObjects l).map (fun o => o.uuid) =
      (dictOfObjects l).map Prod.fst := by
    unfold uniqueObjects
    rw [List.map_map]
    exact List.map_congr_left (fun p hp => hvals p hp)
  rw [heq]
  exact hkeys

theorem scoreGe_trans (a b c : WObject) :
    scoreGe a b = true → scoreGe b c = true → scoreGe a c = true := by
  intro hab hbc
  simp only [scoreGe, decide_eq_true_eq] at hab hbc ⊢
  omega

theorem scoreGe_total (a b : WObject) : (scoreGe a b || scoreGe b a) = true := by
  simp only [scoreGe, Bool.or_eq_true, decide_eq_true_eq]
  omega

/-! ### The EPLaw claims -/

/-- Claim C2: within one aggregation call the final list of EPLaw.call is
built from objects whose uuids are pairwise distinct: no two final documents
originate from objects sharing a uuid. -/
theorem eplaw_final_uuids_nodup (w : EPLawWorld) (query : String) :
    ((topObjects w query).map (fun o => o.uuid)).Nodup := by
  have h1 := uniqueObjects_uuids_nodup (pooledObjects w query)
  have hperm : ((sortedObjects w query).map (fun o => o.uuid)).Perm
      ((uniqueObjects (pooledObjects w query)).map (fun o => o.uuid)) :=
    (List.mergeSort_perm _ scoreGe).map _
  have h2 : ((sortedObjects w query).map (fun o => o.uuid)).Nodup :=
    hperm.nodup_iff.mpr h1
  have h3 : (topObjects w query).map (fun o => o.uuid) =
      ((sortedObjects w query).map (fun o => o.uuid)).take 5 := by
    unfold topObjects
    rw [List.map_take]
  rw [h3]
  exact List.Nodup.sublist (List.take_sublist _ _) h2

/-- Claim C3: the list EPLaw.call returns has length at most 5, and the
objects it is built from are ordered by non-increasing rerank score. -/
theorem eplaw_top_five_sorted (w : EPLawWorld) (query : String) :
    (EPLaw.call w query).length ≤ 5 ∧
      List.Pairwise (fun a b => b.rerank_score ≤ a.rerank_score)
        (topObjects w query) := by
  constructor
  · unfold EPLaw.call topObjects
    rw [List.length_map, List.length_take]
    exact min_le_left _ _
  · have h := List.sorted_mergeSort scoreGe_trans scoreGe_total
      (uniqueObjects (pooledObjects w query))
    have h2 : List.Pairwise (fun a b : WObject => b.rerank_score ≤ a.rerank_score)
        (sortedObjects w query) := by
      refine List.Pairwise.imp ?_ h
      intro a b hab
      simpa [scoreGe, decide_eq_true_eq] using hab
    unfold topObjects
    exact List.Pairwise.sublist (List.take_sublist _ _) h2

/-- Claim C4: the query-expansion step always includes the original query as
one of the expanded prompts, so the expansion list is nonempty. -/
theorem eplaw_expansion_contains_query (query chatText : String) :
    query ∈ expandQueries query chatText ∧ expandQueries query chatText ≠ [] ∧
      1 ≤ (expandQueries query chatText).length := by
  refine ⟨?_, ?_, ?_⟩
  · simp [expandQueries]
  · simp [expandQueries]
  · simp only [expandQueries, List.length_append, List.length_singleton]
    omega

/-- Claim C9: the expansion depends only on the fragments after the first
separator occurrence, so the fragment preceding the first separator is
discarded even when nonempty; and a chat response without any separator
expands to the original query alone. -/
theorem eplaw_expansion_discards_head (query chatText c : String)
    (h : pySplitMarker c = [c]) :
    expandQueries query chatText =
        expandTail query ((pySplitMarker chatText).drop 1) ∧
      expandQueries query c = [query] := by
  constructor
  · rfl
  · simp [expandQueries, h]

/-- Closed instance of the previous theorem at concrete strings; the second
string contains no separator. -/
theorem eplaw_expansion_discards_head_witness :
    expandQueries "prior art novelty" "Here:>>> novelty >>> inventive step" =
        expandTail "prior art novelty"
          ((pySplitMarker "Here:>>> novelty >>> inventive step").drop 1) ∧
      expandQueries "prior art novelty" "I cannot answer that." =
        ["prior art novelty"] :=
  eplaw_expansion_discards_head "prior art novelty"
    "Here:>>> novelty >>> inventive step" "I cannot answer that." rfl

/-- Claim C5: deduplication never grows the pool, and the object retained for
each uuid is the last one pooled: membership in the deduplicated pool is
exactly being the last pooled object with a given uuid. -/
theorem eplaw_dedup_last_write_wins (w : EPLawWorld) (query : String) :
    (uniqueObjects (pooledObjects w query)).length ≤
        (pooledObjects w query).length ∧
      (∀ o ∈ uniqueObjects (pooledObjects w query),
        ((pooledObjects w query).filter (fun x => x.uuid == o.uuid)).getLast? =
          some o) ∧
      (∀ (u : String) (o : WObject),
        ((pooledObjects w query).filter (fun x => x.uuid == u)).getLast? =
            some o →
          o ∈ uniqueObjects (pooledObjects w query)) :=
  ⟨uniqueObjects_length_le _,
   fun _ ho => getLast?_filter_of_mem_uniqueObjects ho,
   fun _ _ h => mem_uniqueObjects_of_getLast?_filter h⟩

/-- An object pooled first under uuid a, with an old score. -/
def wDupOld : WObject := ⟨"a", 1, some "old", none, none⟩

/-- An object under a distinct uuid b. -/
def wDupOther : WObject := ⟨"b", 3, some "other", none, none⟩

/-- An object pooled last under uuid a, with a new score. -/
def wDupNew : WObject := ⟨"a", 2, some "new", none, none⟩

/-- A concrete world whose single search returns two objects sharing uuid a. -/
def eplawWitnessWorld : EPLawWorld :=
  ⟨"", fun _ => ["p"], fun _ => [wDupOld, wDupOther, wDupNew]⟩

/-- Closed instance of the deduplication theorem on a pool with a duplicated
uuid: the object retained under uuid a is the one pooled last. -/
theorem eplaw_dedup_last_write_wins_witness :
    (uniqueObjects (pooledObjects eplawWitnessWorld "q")).length ≤
        (pooledObjects eplawWitnessWorld "q").length ∧
      ((pooledObjects eplawWitnessWorld "q").filter
          (fun x => x.uuid == "a")).getLast? = some wDupNew ∧
      wDupNew ∈ uniqueObjects (pooledObjects eplawWitnessWorld "q") := by
  have h := eplaw_dedup_last_write_wins eplawWitnessWorld "q"
  refine ⟨h.1, ?_, ?_⟩
  · have hm : wDupNew ∈ uniqueObjects (pooledObjects eplawWitnessWorld "q") := by
      decide
    exact h.2.1 wDupNew hm
  · exact h.2.2 "a" wDupNew (by decide)

/-! ### The PatentClaims claims -/

/-- Claim C1 concerns a code bug: on token failure PatentClaims.call does not
return the sentinel error text. With a non-200 token response, and likewise
with a non-200 data fetch, line 68 reads the local claims_in_english that no
failure path ever assigned and raises; when the token request itself raised,
line 34 dereferences auth_response = None and raises. The sentinel string
assigned to the local data on those paths is never returned. -/
theorem patentclaims_token_failure_raises :
    PatentClaims.call ⟨some ⟨401, ""⟩, ⟨200, []⟩⟩ "EP1000000" =
        .raises "UnboundLocalError: claims_in_english" ∧
      PatentClaims.call ⟨none, ⟨200, []⟩⟩ "EP1000000" =
        .raises "AttributeError: NoneType object has no attribute status_code" ∧
      PatentClaims.call ⟨some ⟨200, "tok"⟩, ⟨404, []⟩⟩ "EP1000000" =
        .raises "UnboundLocalError: claims_in_english" :=
  ⟨rfl, rfl, rfl⟩

/-- Claim C7: when the token request and the data fetch both return status
200, PatentClaims.call returns a single-element list wrapping, as text,
exactly the fetched claims whose language tag equals EN. -/
theorem patentclaims_success_filters_english (w : PatentWorld)
    (t : TokenResponse) (pn : String)
    (htok : w.tokenResponse = some t) (h200 : t.status_code = 200)
    (hdata : w.dataResponse.status_code = 200) :
    PatentClaims.call w pn =
      .returns [⟨formatClaims
        (w.dataResponse.claims.filter (fun c => c.lang == some "EN"))⟩] := by
  unfold PatentClaims.call
  rw [htok]
  simp [h200, hdata]

/-- A successful world with one English, one German and one untagged claim. -/
def patentWitnessWorld : PatentWorld :=
  ⟨some ⟨200, "token-xyz"⟩,
   ⟨200, [⟨some "EN", "claim 1"⟩, ⟨some "DE", "anspruch 1"⟩, ⟨none, "untagged"⟩]⟩⟩

/-- Closed instance of the success theorem: only the EN claim survives. -/
theorem patentclaims_success_filters_english_witness :
    PatentClaims.call patentWitnessWorld "EP1000000" =
        .returns [⟨formatClaims (patentWitnessWorld.dataResponse.claims.filter
          (fun c => c.lang == some "EN"))⟩] ∧
      patentWitnessWorld.dataResponse.claims.filter
          (fun c => c.lang == some "EN") = [⟨some "EN", "claim 1"⟩] :=
  ⟨patentclaims_success_filters_english patentWitnessWorld ⟨200, "token-xyz"⟩
    "EP1000000" rfl rfl rfl, rfl⟩

/-! ## Agent CRUD handlers (backend/routers/agent.py) -/

/-- An agent persistence row: the fields the handler copies from the request
payload at lines 60-69 plus the identifier the persistence layer assigns
(the generation temperature is a float in the source, modelled as an
integer). -/
structure AgentRow where
  id : String
  name : String
  description : Option String
  preamble : Option String
  temperature : Int
  user_id : String
  model : String
  deployment : String
  tools : List String
deriving DecidableEq, Repr

/-- A tool-metadata persistence row as built at lines 76-81 (the opaque
artifact payload is modelled as a string). -/
structure ToolMetadataRow where
  user_id : String
  agent_id : String
  tool_name : String
  artifacts : String
deriving DecidableEq, Repr

/-- One entry of the tools_metadata list of a create-agent payload. -/
structure CreateToolMetadata where
  tool_name : String
  artifacts : String
deriving DecidableEq, Repr

/-- The validated create-agent request payload (CreateAgent schema). -/
structure CreateAgentPayload where
  name : String
  description : Option String
  preamble : Option String
  temperature : Int
  model : String
  deployment : String
  tools : List String
  tools_metadata : List CreateToolMetadata
deriving DecidableEq, Repr

/-- The persisted rows visible to one request. -/
structure DBState where
  agents : List AgentRow
  tool_metadata : List ToolMetadataRow
deriving DecidableEq, Repr

/-- The empty acknowledgment returned by delete_agent. -/
structure DeleteAgentAck where
deriving DecidableEq, Repr

/-- The empty acknowledgment returned by delete_agent_tool_metadata. -/
structure DeleteToolMetadataAck where
deriving DecidableEq, Repr

/-- get_agent_by_id, lines 112-139: the lookup sits inside a try block, so a
raising lookup becomes a 500; a lookup that succeeds with no record raises a
400 whose detail names the identifier; a found agent is returned. -/
def get_agent_by_id (lookup : Except String (Option AgentRow))
    (agent_id : String) : HandlerOutcome AgentRow :=
  match lookup with
  | .error e => .httpError 500 e
  | .ok none => .httpError 400 ("Agent with ID: " ++ agent_id ++ " not found.")
  | .ok (some agent) => .ok agent

/-- update_agent, lines 142-184: the lookup sits outside any try block, so a
raising lookup propagates uncaught; no record raises a 400; otherwise the
update runs inside a try block and a raising update becomes a 500. -/
def update_agent (lookup : Except String (Option AgentRow))
    (updateResult : Except String AgentRow) (agent_id : String) :
    HandlerOutcome AgentRow :=
  match lookup with
  | .error e => .uncaught e
  | .ok none => .httpError 400 ("Agent with ID " ++ agent_id ++ " not found.")
  | .ok (some _) =>
    match updateResult with
    | .error e => .httpError 500 e
    | .ok updated => .ok updated

/-- delete_agent, lines 187-219: same shape as update_agent, returning the
empty acknowledgment on success. -/
def delete_agent (lookup : Except String (Option AgentRow))
    (deleteResult : Except String Unit) (agent_id : String) :
    HandlerOutcome DeleteAgentAck :=
  match lookup with
  | .error e => .uncaught e
  | .ok none => .httpError 400 ("Agent with ID " ++ agent_id ++ " not found.")
  | .ok (some _) =>
    match deleteResult with
    | .error e => .httpError 500 e
    | .ok _ => .ok ⟨⟩

/-- update_agent_tool_metadata, lines 299-341: the lookup is by the metadata
identifier and sits outside any try block; no record raises a 400 naming the
metadata identifier; a successful update returns the looked-up record. -/
def update_agent_tool_metadata (lookup : Except String (Option ToolMetadataRow))
    (updateResult : Except String Unit) (_agent_id : String)
    (agent_tool_metadata_id : String) : HandlerOutcome ToolMetadataRow :=
  match lookup with
  | .error e => .uncaught e
  | .ok none =>
    .httpError 400
      ("Agent tool metadata with ID " ++ agent_tool_metadata_id ++ " not found.")
  | .ok (some tm) =>
    match updateResult with
    | .error e => .httpError 500 e
    | .ok _ => .ok tm

/-- delete_agent_tool_metadata, lines 344-381: same shape, returning the
empty acknowledgment on success. -/
def delete_agent_tool_metadata (lookup : Except String (Option ToolMetadataRow))
    (deleteResult : Except String Unit) (_agent_id : String)
    (agent_tool_metadata_id : String) : HandlerOutcome DeleteToolMetadataAck :=
  match lookup with
  | .error e => .uncaught e
  | .ok none =>
    .httpError 400
      ("Agent tool metadata with ID " ++ agent_tool_metadata_id ++ " not found.")
  | .ok (some _) =>
    match deleteResult with
    | .error e => .httpError 500 e
    | .ok _ => .ok ⟨⟩

/-- Modelled from the spec: the persistence layer (backend.crud) is not part
of the sampled source, only its callers are. Per the spec it performs one
insert per call, assigns the new agent its identifier, and a failing later
insert leaves the rows inserted earlier persisted. This environment fixes
the assigned identifier and which inserts raise (by position for the
tool-metadata inserts). -/
structure CrudEnv where
  newAgentId : String
  agentInsertError : Option String
  tmInsertError : Nat → Option String

/-- The agent row the handler builds from the payload at lines 60-69, before
the persistence layer assigns an identifier. -/
def agentRowOf (user_id : String) (agent : CreateAgentPayload) : AgentRow :=
  ⟨"", agent.name, agent.description, agent.preamble, agent.temperature,
   user_id, agent.model, agent.deployment, agent.tools⟩

/-- The loop at lines 74-84: insert the tool-metadata rows one by one; the
first raising insert aborts the loop, keeping the rows inserted so far. -/
def insertToolMetadataFrom (env : CrudEnv) (user_id agent_id : String) :
    Nat → List CreateToolMetadata → DBState → DBState × Option String
  | _, [], st => (st, none)
  | i, tm :: rest, st =>
    match env.tmInsertError i with
    | some e => (st, some e)
    | none =>
      insertToolMetadataFrom env user_id agent_id (i + 1) rest
        { st with
            tool_metadata :=
              st.tool_metadata ++ [⟨user_id, agent_id, tm.tool_name, tm.artifacts⟩] }

/-- The row the crud create call hands back: the handler-built row with the
newly assigned identifier. -/
def createdAgentOf (env : CrudEnv) (user_id : String)
    (agent : CreateAgentPayload) : AgentRow :=
  { agentRowOf user_id agent with id := env.newAgentId }

/-- create_agent, lines 35-87: build the agent row, insert it, then insert
the tool-metadata rows; any exception inside the try block becomes a 500,
and no inserted row is ever rolled back. -/
def create_agent (env : CrudEnv) (st : DBState) (user_id : String)
    (agent : CreateAgentPayload) : DBState × HandlerOutcome AgentRow :=
  match env.agentInsertError with
  | some e => (st, .httpError 500 e)
  | none =>
    match insertToolMetadataFrom env user_id
        (createdAgentOf env user_id agent).id 0 agent.tools_metadata
        { st with agents := st.agents ++ [createdAgentOf env user_id agent] } with
    | (st2, some e) => (st2, .httpError 500 e)
    | (st2, none) => (st2, .ok (createdAgentOf env user_id agent))

/-! ### Lemmas about the router handlers -/

/-- A 4xx status. -/
def isClientError (status : Nat) : Prop := 400 ≤ status ∧ status < 500

/-- A 5xx status. -/
def isServerError (status : Nat) : Prop := 500 ≤ status ∧ status < 600

/-- The detail string contains the identifier. -/
def mentionsId (detail ident : String) : Prop :=
  ∃ pre post, detail = pre ++ ident ++ post

/-- The outcome is a raised client error, not a server error, whose detail
names the identifier. -/
def notFoundClientError {α : Type} (out : HandlerOutcome α) (ident : String) :
    Prop :=
  ∃ status detail, out = .httpError status detail ∧ isClientError status ∧
    ¬ isServerError status ∧ mentionsId detail ident

theorem notFoundClientError_of_detail {α : Type} {out : HandlerOutcome α}
    (pre post ident : String) (h : out = .httpError 400 (pre ++ ident ++ post)) :
    notFoundClientError out ident :=
  ⟨400, pre ++ ident ++ post, h, ⟨by omega, by omega⟩,
   fun hs => absurd hs.1 (by omega), ⟨pre, post, rfl⟩⟩

/-- The status code of a raised HTTPException, if any. -/
def statusOf {α : Type} : HandlerOutcome α → Option Nat
  | .httpError s _ => some s
  | _ => none

/-! ### The router claims -/

/-- Claim C6: whenever a lookup succeeds but returns no record, each of the
five handlers raises a client error whose detail names the missing
identifier, and never a server error. -/
theorem agent_handlers_not_found_client_error (agent_id tm_id : String)
    (upd : Except String AgentRow) (del : Except String Unit)
    (updTm delTm : Except String Unit) :
    notFoundClientError (get_agent_by_id (.ok none) agent_id) agent_id ∧
      notFoundClientError (update_agent (.ok none) upd agent_id) agent_id ∧
      notFoundClientError (delete_agent (.ok none) del agent_id) agent_id ∧
      notFoundClientError
        (update_agent_tool_metadata (.ok none) updTm agent_id tm_id) tm_id ∧
      notFoundClientError
        (delete_agent_tool_metadata (.ok none) delTm agent_id tm_id) tm_id :=
  ⟨notFoundClientError_of_detail "Agent with ID: " " not found." agent_id rfl,
   notFoundClientError_of_detail "Agent with ID " " not found." agent_id rfl,
   notFoundClientError_of_detail "Agent with ID " " not found." agent_id rfl,
   notFoundClientError_of_detail "Agent tool metadata with ID " " not found."
     tm_id rfl,
   notFoundClientError_of_detail "Agent tool metadata with ID " " not found."
     tm_id rfl⟩

/-- Claim C10: the not-found error each of the five handlers raises carries
status code 400 exactly, not 404. -/
theorem agent_handlers_not_found_status_400 (agent_id tm_id : String)
    (upd : Except String AgentRow) (del : Except String Unit)
    (updTm delTm : Except String Unit) :
    (statusOf (get_agent_by_id (.ok none) agent_id) = some 400 ∧
        statusOf (get_agent_by_id (.ok none) agent_id) ≠ some 404) ∧
      (statusOf (update_agent (.ok none) upd agent_id) = some 400 ∧
        statusOf (update_agent (.ok none) upd agent_id) ≠ some 404) ∧
      (statusOf (delete_agent (.ok none) del agent_id) = some 400 ∧
        statusOf (delete_agent (.ok none) del agent_id) ≠ some 404) ∧
      (statusOf (update_agent_tool_metadata (.ok none) updTm agent_id tm_id) =
          some 400 ∧
        statusOf (update_agent_tool_metadata (.ok none) updTm agent_id tm_id) ≠
          some 404) ∧
      (statusOf (delete_agent_tool_metadata (.ok none) delTm agent_id tm_id) =
          some 400 ∧
        statusOf (delete_agent_tool_metadata (.ok none) delTm agent_id tm_id) ≠
          some 404) := by
  refine ⟨⟨rfl, ?_⟩, ⟨rfl, ?_⟩, ⟨rfl, ?_⟩, ⟨rfl, ?_⟩, ⟨rfl, ?_⟩⟩ <;>
    · intro h
      exact absurd (Option.some.inj h) (by omega)

theorem insertToolMetadataFrom_agents (env : CrudEnv) (u a : String) :
    ∀ (l : List CreateToolMetadata) (i : Nat) (st : DBState),
      (insertToolMetadataFrom env u a i l st).1.agents = st.agents := by
  intro l
  induction l with
  | nil => intro i st; rfl
  | cons tm rest ih =>
    intro i st
    cases h : env.tmInsertError i with
    | some e => simp [insertToolMetadataFrom, h]
    | none =>
      simp only [insertToolMetadataFrom, h]
      rw [ih (i + 1)]

theorem insertToolMetadataFrom_fails (env : CrudEnv) (u a : String) :
    ∀ (l : List CreateToolMetadata) (i : Nat) (st : DBState),
      (∃ j, j < l.length ∧ env.tmInsertError (i + j) ≠ none) →
      ∃ e, (insertToolMetadataFrom env u a i l st).2 = some e := by
  intro l
  induction l with
  | nil =>
    intro i st h
    rcases h with ⟨j, hj, _⟩
    simp at hj
  | cons tm rest ih =>
    intro i st h
    cases hc : env.tmInsertError i with
    | some e => exact ⟨e, by simp [insertToolMetadataFrom, hc]⟩
    | none =>
      rcases h with ⟨j, hj, hne⟩
      cases j with
      | zero =>
        rw [Nat.add_zero] at hne
        exact absurd hc hne
      | succ j2 =>
        have hrec := ih (i + 1)
          { st with
              tool_metadata :=
                st.tool_metadata ++ [⟨u, a, tm.tool_name, tm.artifacts⟩] }
          ⟨j2, by simpa [Nat.succ_lt_succ_iff] using hj,
            by rw [show i + 1 + j2 = i + (j2 + 1) by omega]; exact hne⟩
        rcases hrec with ⟨e, he⟩
        refine ⟨e, ?_⟩
        simp only [insertToolMetadataFrom, hc]
        exact he

/-- Claim C8 (spec-modelled persistence): when the agent insert succeeds and
one of the subsequent tool-metadata inserts raises, create_agent raises a
generic 500 server error while the agent row inserted earlier remains in the
persisted state: the handler performs no rollback. -/
theorem create_agent_not_transactional (env : CrudEnv) (st : DBState)
    (user_id : String) (agent : CreateAgentPayload)
    (hA : env.agentInsertError = none)
    (hF : ∃ j, j < agent.tools_metadata.length ∧ env.tmInsertError j ≠ none) :
    (∃ e, (create_agent env st user_id agent).2 = .httpError 500 e) ∧
      createdAgentOf env user_id agent ∈
        (create_agent env st user_id agent).1.agents := by
  have hF0 : ∃ j, j < agent.tools_metadata.length ∧
      env.tmInsertError (0 + j) ≠ none := by
    rcases hF with ⟨j, hj, hne⟩
    exact ⟨j, hj, by simpa using hne⟩
  rcases insertToolMetadataFrom_fails env user_id
      (createdAgentOf env user_id agent).id agent.tools_metadata 0
      { st with agents := st.agents ++ [createdAgentOf env user_id agent] }
      hF0 with ⟨e, he⟩
  have hag := insertToolMetadataFrom_agents env user_id
    (createdAgentOf env user_id agent).id agent.tools_metadata 0
    { st with agents := st.agents ++ [createdAgentOf env user_id agent] }
  rcases hres : insertToolMetadataFrom env user_id
      (createdAgentOf env user_id agent).id 0 agent.tools_metadata
      { st with agents := st.agents ++ [createdAgentOf env user_id agent] }
    with ⟨st2, r⟩
  rw [hres] at he hag
  simp only at he hag
  subst he
  constructor
  · exact ⟨e, by simp [create_agent, hA, hres]⟩
  · simp only [create_agent, hA, hres]
    rw [hag]
    simp

/-- A persistence environment whose first tool-metadata insert raises. -/
def crudWitnessEnv : CrudEnv :=
  ⟨"agent-1", none, fun i => if i = 0 then some "insert failed" else none⟩

/-- A create payload carrying one tool-metadata entry. -/
def createWitnessPayload : CreateAgentPayload :=
  ⟨"my agent", none, none, 0, "command-r-plus", "cohere", [],
   [⟨"web_search", "artifact"⟩]⟩

/-- Closed instance of the non-transactionality theorem: starting from an
empty database, the failing tool-metadata insert yields a 500 while the
agent row stays persisted. -/
theorem create_agent_not_transactional_witness :
    (∃ e, (create_agent crudWitnessEnv ⟨[], []⟩ "user-1"
        createWitnessPayload).2 = .httpError 500 e) ∧
      createdAgentOf crudWitnessEnv "user-1" createWitnessPayload ∈
        (create_agent crudWitnessEnv ⟨[], []⟩ "user-1"
          createWitnessPayload).1.agents :=
  create_agent_not_transactional crudWitnessEnv ⟨[], []⟩ "user-1"
    createWitnessPayload rfl ⟨0, by decide, by decide⟩
